import Mathlib

/-!
Verification of the amm-toolkit pool model, swap/pricing arithmetic and
the discovery/synchronization engine, as a shallow embedding in Lean.

Machine integers are modelled as `Nat` with explicit width guards where the
Rust source can overflow:
* `U256` (ethers/uint crate) panics on overflowing `*`, `+`, `-`; such an
  operation is modelled by a `u256Checked` guard returning `none`.
* `u32`/`u64` subtraction underflow and `u128::pow` overflow panic under
  debug assertions; they are modelled as `none` as well.
* `u8 as i8` is Rust's defined wrapping conversion (never a panic) and is
  modelled exactly.
A `none` result therefore means "the Rust source panics on this input";
`some v` means the source returns `v`.

Chain interaction (RPC calls, ABI decode) is abstracted by oracle function
parameters giving the decoded response of each aggregated call; the logic
under verification is everything the source does around those calls.
-/

namespace AmmToolkit

/-- `2^256`, the modulus of the `U256` type used for swap arithmetic. -/
def U256_MOD : Nat := 2 ^ 256

/-- `2^128`, the modulus of `u128` (reserves, fixed-point prices). -/
def U128_MOD : Nat := 2 ^ 128

/-- Embedding of `UniswapV2Pool` (src/amm/uniswap_v2/mod.rs).
Addresses (`H160`) are modelled as `Nat`; the zero address is `0`.
Field widths from the source: decimals `u8`, reserves `u128`, fee `u32`. -/
structure UniswapV2Pool where
  address : Nat
  token_a : Nat
  token_a_decimals : Nat
  token_b : Nat
  token_b_decimals : Nat
  reserve_0 : Nat
  reserve_1 : Nat
  fee : Nat
deriving Repr, DecidableEq

/-- Error enum used by the engine (declared in `errors.rs`, visible in src
through its construction and matching sites). -/
inductive AMMError where
  | poolDataError (addr : Nat)
  | batchRequestError (addr : Nat)
  | middlewareError
  | outOfGasError (addrs : List Nat)
  | contractError
deriving Repr, DecidableEq

/-- Error type of `simulate_swap`'s `Result`; the source never constructs a
value of it (every return is `Ok`). -/
inductive SwapSimulationError where
  | swapError
deriving Repr, DecidableEq

/-- Error type of the fixed-point price computation. -/
inductive ArithmeticError where
  | overflow
deriving Repr, DecidableEq

/-- Embedding of `UniswapV2Pool::get_amount_out` (src/amm/uniswap_v2/mod.rs
lines 126-136).  The zero checks come first; then the `u32` fee factor
`(10000 - fee/10) / 10`; then three `U256` operations, each of which panics
on overflow (`none`). -/
def get_amount_out (p : UniswapV2Pool) (amount_in reserve_in reserve_out : Nat) :
    Option Nat :=
  if amount_in = 0 ∨ reserve_in = 0 ∨ reserve_out = 0 then
    some 0
  else if 10000 < p.fee / 10 then
    none
  else
    let feeFactor := (10000 - p.fee / 10) / 10
    let amount_in_with_fee := amount_in * feeFactor
    if U256_MOD ≤ amount_in_with_fee then none
    else if U256_MOD ≤ amount_in_with_fee * reserve_out then none
    else if U256_MOD ≤ reserve_in * 1000 then none
    else if U256_MOD ≤ reserve_in * 1000 + amount_in_with_fee then none
    else if reserve_in * 1000 + amount_in_with_fee = 0 then none
    else some (amount_in_with_fee * reserve_out / (reserve_in * 1000 + amount_in_with_fee))

/-- Embedding of `UniswapV2Pool::simulate_swap` (src/amm/uniswap_v2/mod.rs
lines 106-124): a `token_in` equal to `token_a` swaps reserve_0 → reserve_1;
every other `token_in` (including one matching neither token) takes the
`else` branch, reserve_1 → reserve_0.  All returns are `Except.ok`; the
outer `Option` records a potential arithmetic panic. -/
def simulate_swap (p : UniswapV2Pool) (token_in amount_in : Nat) :
    Option (Except SwapSimulationError Nat) :=
  if p.token_a = token_in then
    (get_amount_out p amount_in p.reserve_0 p.reserve_1).map Except.ok
  else
    (get_amount_out p amount_in p.reserve_1 p.reserve_0).map Except.ok

/-- The integer fee factor computed by `get_amount_out`
(src/amm/uniswap_v2/mod.rs line 130): `(10000 - fee/10) / 10`. -/
def feeFactor (p : UniswapV2Pool) : Nat :=
  (10000 - p.fee / 10) / 10

/-- The swap output exactly as the specification words it: fee factor
`(10000 - feeBasisPoints/10) / 10`, output
`floor(amountIn * feeFactor * reserveOut / (reserveIn * 1000 + amountIn * feeFactor))`,
and `0` whenever `amountIn`, `reserveIn` or `reserveOut` is zero.
Stated over unbounded naturals (the spec demands overflow-free arithmetic). -/
def specSwapOutput (feeBp amount_in reserve_in reserve_out : Nat) : Nat :=
  if amount_in = 0 ∨ reserve_in = 0 ∨ reserve_out = 0 then 0
  else
    let f := (10000 - feeBp / 10) / 10
    amount_in * f * reserve_out / (reserve_in * 1000 + amount_in * f)

/-- Rust's `u8 as i8` wrapping conversion (defined behavior, never panics):
values ≥ 128 become negative. -/
def u8AsI8 (n : Nat) : Int :=
  if n < 128 then (n : Int) else (n : Int) - 256

/-- The decimal-normalization step of `calculate_price_64_x_64`
(src/amm/uniswap_v2/mod.rs lines 139-152):
`decimal_shift = token_a_decimals as i8 - token_b_decimals as i8` — an `i8`
subtraction, panicking (debug) when the difference leaves `[-128, 127]`;
when negative, `reserve_0` is scaled by `10u128.pow(|shift|)`, otherwise
`reserve_1` is scaled by `10u128.pow(shift)` — the `pow` panicking (debug)
when `10^k` exceeds `u128` (`10^38 < 2^128 ≤ 10^39`); the scaling
multiplication itself is a `U256` operation with its own overflow panic. -/
def normalize_reserves (p : UniswapV2Pool) : Option (Nat × Nat) :=
  let sa := u8AsI8 p.token_a_decimals
  let sb := u8AsI8 p.token_b_decimals
  if sa - sb < -128 ∨ 127 < sa - sb then
    none
  else
    let decimal_shift := sa - sb
    if decimal_shift < 0 then
      if U128_MOD ≤ 10 ^ decimal_shift.natAbs then none
      else if U256_MOD ≤ p.reserve_0 * 10 ^ decimal_shift.natAbs then none
      else some (p.reserve_0 * 10 ^ decimal_shift.natAbs, p.reserve_1)
    else
      if U128_MOD ≤ 10 ^ decimal_shift.toNat then none
      else if U256_MOD ≤ p.reserve_1 * 10 ^ decimal_shift.toNat then none
      else some (p.reserve_0, p.reserve_1 * 10 ^ decimal_shift.toNat)

/-- Modelled from the spec: the constant `U128_0X10000000000000000` of the
`large_int_maths` module (not under src/), the 64.64 fixed-point
representation of 1.0; its value `2^64` is given by its name and by the
spec's zero-reserve edge case. -/
def U128_0X10000000000000000 : Nat := 2 ^ 64

/-- Modelled from the spec: `div_uu` of the `large_int_maths` module (not
under src/) — "divide two unsigned values and return a 64.64 fixed-point
quotient: shift the numerator left by 64 bits in a double-width accumulator
before dividing", with an arithmetic error when the quotient does not fit
the 128-bit fixed-point result. -/
def div_uu (x y : Nat) : Except ArithmeticError Nat :=
  if y = 0 then Except.error ArithmeticError.overflow
  else
    let q := x * 2 ^ 64 / y
    if q < U128_MOD then Except.ok q else Except.error ArithmeticError.overflow

/-- Embedding of `UniswapV2Pool::calculate_price_64_x_64`
(src/amm/uniswap_v2/mod.rs lines 138-165): after normalization, a base token
equal to `token_a` prices reserve_1 over reserve_0 (and every other base
token prices reserve_0 over reserve_1), returning the fixed-point 1.0 when
the base reserve is zero instead of dividing. -/
def calculate_price_64_x_64 (p : UniswapV2Pool) (base_token : Nat) :
    Option (Except ArithmeticError Nat) :=
  match normalize_reserves p with
  | none => none
  | some (r_0, r_1) =>
    if base_token = p.token_a then
      if r_0 = 0 then some (Except.ok U128_0X10000000000000000)
      else some (div_uu r_1 r_0)
    else
      if r_1 = 0 then some (Except.ok U128_0X10000000000000000)
      else some (div_uu r_0 r_1)

/-- Decimal normalization exactly as the specification words it: multiply
the reserve of the token with fewer decimals by `10^|decimalShift|`, the
other reserve unchanged, over unbounded naturals. -/
def spec_normalized_reserves (p : UniswapV2Pool) : Nat × Nat :=
  if p.token_a_decimals ≤ p.token_b_decimals then
    (p.reserve_0 * 10 ^ (p.token_b_decimals - p.token_a_decimals), p.reserve_1)
  else
    (p.reserve_0, p.reserve_1 * 10 ^ (p.token_a_decimals - p.token_b_decimals))

/-- Decoded per-address response slot of the pool-data batch call
(`(token_a, token_a_decimals, token_b, token_b_decimals, reserve_0,
reserve_1)`). -/
structure PoolData where
  token_a : Nat
  token_a_decimals : Nat
  token_b : Nat
  token_b_decimals : Nat
  reserve_0 : Nat
  reserve_1 : Nat
deriving Repr, DecidableEq

/-- How a decoded response slot is turned into a `UniswapV2Pool` tagged with
the requested address and fee (src/amm/uniswap_v2/batch_request/mod.rs). -/
def poolFromData (d : PoolData) (address fee : Nat) : UniswapV2Pool :=
  { address := address
    token_a := d.token_a
    token_a_decimals := d.token_a_decimals
    token_b := d.token_b
    token_b_decimals := d.token_b_decimals
    reserve_0 := d.reserve_0
    reserve_1 := d.reserve_1
    fee := fee }

/-- Embedding of `UniswapV2Pool::data_is_populated`
(src/amm/uniswap_v2/mod.rs lines 83-88). -/
def data_is_populated (p : UniswapV2Pool) : Bool :=
  !(p.token_a = 0 || p.token_b = 0 || p.reserve_0 = 0 || p.reserve_1 = 0)

/-- Embedding of `get_uniswap_v2_pool_data_batch_request`
(src/amm/uniswap_v2/batch_request/mod.rs lines 90-167): on a successfully
decoded response (abstracted by the `fetch` oracle) every requested address
is mapped 1:1 to a pool — there is no populated-data check on this path. -/
def get_uniswap_v2_pool_data_batch_request
    (fetch : Nat → PoolData) (pair_addresses : List Nat) (fee : Nat) :
    List UniswapV2Pool :=
  pair_addresses.map (fun a => poolFromData (fetch a) a fee)

/-- Embedding of `UniswapV2Pool::new_from_address`
(src/amm/uniswap_v2/mod.rs lines 91-104): a single-address fetch followed by
the populated check, failing with `PoolDataError` when it does not hold. -/
def new_from_address (fetch : Nat → PoolData) (pair_address fee : Nat) :
    Except AMMError UniswapV2Pool :=
  let pool := poolFromData (fetch pair_address) pair_address fee
  if !(data_is_populated pool) then
    Except.error (AMMError.poolDataError pair_address)
  else
    Except.ok pool

/-- Embedding of `get_uniswap_v2_pairs_batch_request`
(src/amm/uniswap_v2/batch_request/mod.rs lines 169-207): zero addresses in
the decoded response are filtered out. -/
def get_uniswap_v2_pairs_batch_request (raw : List Nat) : List Nat :=
  raw.filter (fun a => !(a = 0 : Bool))

/-- Embedding of `UniswapV2Factory::get_pairs_range`
(src/amm/uniswap_v2/factory.rs lines 146-168): pair addresses for the index
range (`pairs_oracle` gives the decoded address-call response), then the
pool-data batch — whose result is returned as-is. -/
def get_pairs_range (pairs_oracle : Nat → Nat → List Nat)
    (fetch : Nat → PoolData) (fee from_ to_ : Nat) : List UniswapV2Pool :=
  let addresses := get_uniswap_v2_pairs_batch_request (pairs_oracle from_ to_)
  get_uniswap_v2_pool_data_batch_request fetch addresses fee

/-- The batched-call step size of
`get_all_pairs_addresses_via_batched_calls` (src/amm/uniswap_v2/factory.rs
line 181). -/
def step766 : Nat := 766

/-- The loop of `get_all_pairs_addresses_via_batched_calls`
(src/amm/uniswap_v2/factory.rs lines 182-201): one `(idx_from, idx_to)`
request window per iteration, then `idx_from := idx_to` and
`idx_to := min (idx_to + 766) (pairs_length - 1)`.  The iteration count is
that of `(0..pairs_length).step_by(766)`, i.e. `⌈pairs_length / 766⌉`. -/
def pairsWindowsAux : Nat → Nat → Nat → Nat → List (Nat × Nat)
  | 0, _, _, _ => []
  | k + 1, idx_from, idx_to, n =>
      (idx_from, idx_to) ::
        pairsWindowsAux k idx_to (min (idx_to + step766) (n - 1)) n

/-- The request windows issued by
`get_all_pairs_addresses_via_batched_calls` for a registry of
`pairs_length` pairs, with the source's initial
`idx_to = if 766 > pairs_length then pairs_length else 766`. -/
def get_all_pairs_addresses_windows (pairs_length : Nat) : List (Nat × Nat) :=
  pairsWindowsAux ((pairs_length + step766 - 1) / step766) 0
    (if step766 > pairs_length then pairs_length else step766) pairs_length

/-- The pool-data sync windows of `sync_all_uniswap_v2_pools_concurrent` and
`sync_all_uniswap_v2_pools_serial` (src/amm/uniswap_v2/sync.rs lines 68-75
and 112-123): `(i, min (i + 100) pairs_length)` for
`i in (0..pairs_length).step_by(100)`. -/
def syncWindows (pairs_length step : Nat) : List (Nat × Nat) :=
  (List.range ((pairs_length + step - 1) / step)).map
    (fun k => (k * step, min (k * step + step) pairs_length))

/-- An index is requested by a window list when a half-open window `[a, b)`
of it contains the index (the spec's semantics of the pair-address range
call `fetchPairAddresses(factory, fromIndex, toIndex)`). -/
def windowsCover (ws : List (Nat × Nat)) (i : Nat) : Bool :=
  ws.any (fun w => w.1 ≤ i && i < w.2)

/-- The block windows of `sync_all_uniswap_v2_pools_from_logs_use_range`
(src/amm/uniswap_v2/sync.rs lines 148-155):
`(i, min (i + 100) current_block)` for
`i in (sync_block..current_block).step_by(100)`. -/
def blockWindows (sync_block current_block step : Nat) : List (Nat × Nat) :=
  (List.range ((current_block - sync_block + step - 1) / step)).map
    (fun k => (sync_block + k * step, min (sync_block + k * step + step) current_block))

/-- Embedding of `get_all_pools_for_block_range_from_logs`
(src/amm/uniswap_v2/factory.rs lines 88-120) on the success path of the
chain calls: the pool addresses decoded from the creation-event logs of the
block range (the `logs` oracle), then the pool-data batch — returned with no
populated-data check. -/
def get_all_pools_for_block_range_from_logs (logs : Nat → Nat → List Nat)
    (fetch : Nat → PoolData) (fee block_start block_end : Nat) :
    Except AMMError (List UniswapV2Pool) :=
  Except.ok (get_uniswap_v2_pool_data_batch_request fetch (logs block_start block_end) fee)

/-- The result-merging loop of `sync_all_uniswap_v2_pools_from_logs_use_range`
(src/amm/uniswap_v2/sync.rs lines 158-167, identical to
`get_pools_from_logs` in src/uniswap_v2/factory.rs lines 250-259): window
results in order; an `Ok` batch is appended whole, a `PoolDataError` is
logged and the whole window skipped, any other error is returned for the
entire run. -/
def mergeLogSyncResults :
    List (Except AMMError (List UniswapV2Pool)) → Except AMMError (List UniswapV2Pool)
  | [] => Except.ok []
  | Except.ok batch :: rest =>
      match mergeLogSyncResults rest with
      | Except.ok pools => Except.ok (batch ++ pools)
      | Except.error e => Except.error e
  | Except.error (AMMError.poolDataError _) :: rest => mergeLogSyncResults rest
  | Except.error e :: _ => Except.error e

/-- Embedding of `sync_all_uniswap_v2_pools_from_logs_use_range`
(src/amm/uniswap_v2/sync.rs lines 130-172): the merge loop over the window
results of the log-range discovery. -/
def sync_all_uniswap_v2_pools_from_logs_use_range (logs : Nat → Nat → List Nat)
    (fetch : Nat → PoolData) (fee sync_block current_block : Nat) :
    Except AMMError (List UniswapV2Pool) :=
  mergeLogSyncResults
    ((blockWindows sync_block current_block 100).map
      (fun w => get_all_pools_for_block_range_from_logs logs fetch fee w.1 w.2))

/-- The `Ok` payloads of a window-result list, in order (what the merge loop
appends when every failure is tolerated). -/
def okBatches :
    List (Except AMMError (List UniswapV2Pool)) → List UniswapV2Pool
  | [] => []
  | Except.ok batch :: rest => batch ++ okBatches rest
  | Except.error _ :: rest => okBatches rest

/-- A window result the merge loop tolerates: an `Ok` batch or a
`PoolDataError`. -/
def okOrPoolErr : Except AMMError (List UniswapV2Pool) → Bool
  | Except.ok _ => true
  | Except.error (AMMError.poolDataError _) => true
  | Except.error _ => false

/-- Outcome of one weth-value batch call as classified by
`get_weth_value_in_pool_batch_request` (src/uniswap_v2/batch_request.rs
lines 174-216): any `call_raw` failure becomes `OutOfGasError` with the
batch's addresses (`tooLarge`); a later failure such as a decode mismatch
propagates as-is (`hardFail`). -/
inductive BatchStatus where
  | success
  | tooLarge
  | hardFail
deriving Repr, DecidableEq

/-- Embedding of `get_weth_value_in_pool_batch_request`
(src/uniswap_v2/batch_request.rs lines 174-216): on success the response
maps each requested address to its weth value (`vf` abstracts the chain's
valuation), on an oversized call the error carries the batch's addresses. -/
def get_weth_value_in_pool_batch_request (status : List Nat → BatchStatus)
    (vf : Nat → Nat) (addresses : List Nat) :
    Except AMMError (List (Nat × Nat)) :=
  match status addresses with
  | BatchStatus.success => Except.ok (addresses.map (fun a => (a, vf a)))
  | BatchStatus.tooLarge => Except.error (AMMError.outOfGasError addresses)
  | BatchStatus.hardFail => Except.error AMMError.middlewareError

/-- The address windows of `get_weth_value_in_pools`
(src/uniswap_v2/batch_request.rs lines 236-244):
`addresses[i..min(i+step, len)]` for `i in (0..len).step_by(step)`. -/
def addressWindows (addresses : List Nat) (step : Nat) : List (List Nat) :=
  (List.range ((addresses.length + step - 1) / step)).map
    (fun k => ((addresses.drop (k * step)).take step))

/-- The first collection loop of `get_weth_value_in_pools`
(src/uniswap_v2/batch_request.rs lines 249-259): `Ok` maps are merged,
`OutOfGasError` batches accumulate into the failed-address list, any other
error is returned for the whole call. -/
def collectWethResults :
    List (Except AMMError (List (Nat × Nat))) →
      Except AMMError (List (Nat × Nat) × List Nat)
  | [] => Except.ok ([], [])
  | Except.ok m :: rest =>
      match collectWethResults rest with
      | Except.ok (vals, failed) => Except.ok (m ++ vals, failed)
      | Except.error e => Except.error e
  | Except.error (AMMError.outOfGasError batch) :: rest =>
      match collectWethResults rest with
      | Except.ok (vals, failed) => Except.ok (vals, batch ++ failed)
      | Except.error e => Except.error e
  | Except.error e :: _ => Except.error e

/-- The retry loop of `get_weth_value_in_pools`
(src/uniswap_v2/batch_request.rs lines 261-280): each failed address is
retried as its own single-address batch; any error now propagates. -/
def retryFailedSingles (status : List Nat → BatchStatus) (vf : Nat → Nat) :
    List Nat → Except AMMError (List (Nat × Nat))
  | [] => Except.ok []
  | a :: rest =>
      match get_weth_value_in_pool_batch_request status vf [a] with
      | Except.ok m =>
          match retryFailedSingles status vf rest with
          | Except.ok vals => Except.ok (m ++ vals)
          | Except.error e => Except.error e
      | Except.error e => Except.error e

/-- Embedding of `get_weth_value_in_pools`
(src/uniswap_v2/batch_request.rs lines 218-283): windows issued over the
address list, oversized windows collected and retried address-by-address,
results merged. -/
def get_weth_value_in_pools (status : List Nat → BatchStatus) (vf : Nat → Nat)
    (addresses : List Nat) (step : Nat) : Except AMMError (List (Nat × Nat)) :=
  match collectWethResults
      ((addressWindows addresses step).map
        (get_weth_value_in_pool_batch_request status vf)) with
  | Except.error e => Except.error e
  | Except.ok (vals, failed) =>
      match retryFailedSingles status vf failed with
      | Except.error e => Except.error e
      | Except.ok vals2 => Except.ok (vals ++ vals2)

/-- Observer: the batches `get_weth_value_in_pools` issues to the chain when
no window fails hard — the initial windows in order, then one single-address
batch per address of each oversized window. -/
def issuedBatches (status : List Nat → BatchStatus) (addresses : List Nat)
    (step : Nat) : List (List Nat) :=
  let ws := addressWindows addresses step
  ws ++ ((ws.filter (fun b => status b = BatchStatus.tooLarge)).flatten).map
    (fun a => [a])

/-! ## Helper lemmas -/

/-- Cross-multiplication criterion for division monotonicity on `Nat`. -/
theorem div_le_div_cross {n1 d1 n2 d2 : Nat} (hd2 : 0 < d2)
    (h : n1 * d2 ≤ n2 * d1) : n1 / d1 ≤ n2 / d2 := by
  rcases Nat.eq_zero_or_pos d1 with h1 | h1
  · subst h1; simp [Nat.div_zero]
  · refine (Nat.le_div_iff_mul_le hd2).mpr ?_
    have h2 : n1 / d1 * d2 * d1 ≤ n2 * d1 := by
      calc n1 / d1 * d2 * d1 = n1 / d1 * d1 * d2 := by ring
        _ ≤ n1 * d2 := Nat.mul_le_mul_right _ (Nat.div_mul_le_self n1 d1)
        _ ≤ n2 * d1 := h
    exact Nat.le_of_mul_le_mul_right h2 h1

/-- What a successful `get_amount_out` result looks like: either a zero
input or reserve (output 0), or the fee-adjusted constant-product quotient
with all overflow guards passed. -/
theorem get_amount_out_some_char (p : UniswapV2Pool) {a rin rout o : Nat}
    (h : get_amount_out p a rin rout = some o) :
    ((a = 0 ∨ rin = 0 ∨ rout = 0) ∧ o = 0) ∨
    (a ≠ 0 ∧ rin ≠ 0 ∧ rout ≠ 0 ∧ p.fee / 10 ≤ 10000 ∧
      a * feeFactor p * rout < U256_MOD ∧
      rin * 1000 + a * feeFactor p < U256_MOD ∧
      o = a * feeFactor p * rout / (rin * 1000 + a * feeFactor p)) := by
  simp only [get_amount_out] at h
  split_ifs at h with h0 h1 h2 h3 h4 h5 h6 <;>
    simp only [Option.some.injEq, reduceCtorEq] at h
  · exact Or.inl ⟨h0, h.symm⟩
  · push_neg at h0 h1 h2 h3 h4 h5
    exact Or.inr ⟨h0.1, h0.2.1, h0.2.2, h1, by simpa [feeFactor] using h3,
      by simpa [feeFactor] using h5, by simp [feeFactor, ← h]⟩

/-- `simulate_swap` succeeds with `Ok o` exactly when `get_amount_out`
applied to the branch-selected reserves returns `o`. -/
theorem simulate_swap_ok_iff (p : UniswapV2Pool) (t a o : Nat) :
    simulate_swap p t a = some (Except.ok o) ↔
      get_amount_out p a (if p.token_a = t then p.reserve_0 else p.reserve_1)
        (if p.token_a = t then p.reserve_1 else p.reserve_0) = some o := by
  unfold simulate_swap
  by_cases ht : p.token_a = t <;>
    simp only [ht, if_pos, if_neg, ite_true, ite_false, not_false_iff] <;>
    cases hga : get_amount_out p a _ _ <;> simp [hga]

/-- Monotonicity of `get_amount_out` in the input amount, on the domain
where it returns a value. -/
theorem get_amount_out_mono (p : UniswapV2Pool) {a1 a2 rin rout o1 o2 : Nat}
    (h1 : get_amount_out p a1 rin rout = some o1)
    (h2 : get_amount_out p a2 rin rout = some o2)
    (hle : a1 ≤ a2) : o1 ≤ o2 := by
  rcases get_amount_out_some_char p h1 with ⟨_, rfl⟩ | ⟨ha1, hrin, hrout, _, _, _, rfl⟩
  · exact Nat.zero_le _
  rcases get_amount_out_some_char p h2 with ⟨hz, _⟩ | ⟨_, _, _, _, _, _, rfl⟩
  · rcases hz with hz | hz | hz
    · exact absurd hz (by omega)
    · exact absurd hz hrin
    · exact absurd hz hrout
  set f := feeFactor p with hf
  refine div_le_div_cross (by positivity) ?_
  have base : a1 * (f * rout * (rin * 1000)) ≤ a2 * (f * rout * (rin * 1000)) :=
    Nat.mul_le_mul_right _ hle
  calc a1 * f * rout * (rin * 1000 + a2 * f)
      = a1 * (f * rout * (rin * 1000)) + a1 * f * rout * (a2 * f) := by ring
    _ ≤ a2 * (f * rout * (rin * 1000)) + a1 * f * rout * (a2 * f) :=
        Nat.add_le_add_right base _
    _ = a2 * f * rout * (rin * 1000 + a1 * f) := by ring

/-- A successful `get_amount_out` output never reaches the output reserve
when both reserves are positive. -/
theorem get_amount_out_lt_reserve_out (p : UniswapV2Pool) {a rin rout o : Nat}
    (h : get_amount_out p a rin rout = some o)
    (hrin : 0 < rin) (hrout : 0 < rout) : o < rout := by
  rcases get_amount_out_some_char p h with ⟨_, rfl⟩ | ⟨_, _, _, _, _, _, rfl⟩
  · exact hrout
  set f := feeFactor p with hf
  have hd : 0 < rin * 1000 + a * f := by positivity
  refine (Nat.div_lt_iff_lt_mul hd).mpr ?_
  have hpos : 0 < rout * (rin * 1000) := by positivity
  calc a * f * rout < a * f * rout + rout * (rin * 1000) := by omega
    _ = rout * (rin * 1000 + a * f) := by ring

/-- When the fee does not underflow and the two products the source forms
fit in 256 bits, `get_amount_out` returns exactly the specification's
constant-product output. -/
theorem get_amount_out_eq_spec (p : UniswapV2Pool) (a rin rout : Nat)
    (hfee : p.fee / 10 ≤ 10000)
    (hnum : a * feeFactor p * rout < U256_MOD)
    (hden : rin * 1000 + a * feeFactor p < U256_MOD) :
    get_amount_out p a rin rout = some (specSwapOutput p.fee a rin rout) := by
  unfold get_amount_out specSwapOutput
  by_cases h0 : a = 0 ∨ rin = 0 ∨ rout = 0
  · simp [h0]
  rw [if_neg h0, if_neg h0]
  push_neg at h0
  have hrout1 : 1 ≤ rout := Nat.one_le_iff_ne_zero.mpr h0.2.2
  have hrin1 : 1 ≤ rin := Nat.one_le_iff_ne_zero.mpr h0.2.1
  have hf : (10000 - p.fee / 10) / 10 = feeFactor p := rfl
  rw [if_neg (by omega)]
  simp only [hf]
  have hwf : a * feeFactor p < U256_MOD := by
    calc a * feeFactor p = a * feeFactor p * 1 := by ring
      _ ≤ a * feeFactor p * rout := Nat.mul_le_mul_left _ hrout1
      _ < U256_MOD := hnum
  have hd0 : rin * 1000 < U256_MOD := by omega
  have hdz : ¬(rin * 1000 + a * feeFactor p = 0) := by positivity
  rw [if_neg (by omega), if_neg (by omega), if_neg (by omega), if_neg (by omega),
    if_neg hdz]

/-- Totality of `get_amount_out` for 112-bit reserves, fee tiers up to
10000 basis points and amounts below `2^134`. -/
theorem get_amount_out_isSome (p : UniswapV2Pool) (a rin rout : Nat)
    (hfee : p.fee ≤ 10000)
    (hrin : rin < 2 ^ 112) (hrout : rout < 2 ^ 112)
    (ha : a < 2 ^ 134) : (get_amount_out p a rin rout).isSome = true := by
  have hfee10 : p.fee / 10 ≤ 10000 := by omega
  have hffle : feeFactor p ≤ 1000 := by
    unfold feeFactor
    calc (10000 - p.fee / 10) / 10 ≤ 10000 / 10 :=
          Nat.div_le_div_right (by omega)
      _ = 1000 := by norm_num
  have hwf : a * feeFactor p < 2 ^ 144 := by
    calc a * feeFactor p ≤ (2 ^ 134 - 1) * 1000 := Nat.mul_le_mul (by omega) hffle
      _ < 2 ^ 144 := by norm_num
  have hnum : a * feeFactor p * rout < U256_MOD := by
    calc a * feeFactor p * rout ≤ (2 ^ 144 - 1) * (2 ^ 112 - 1) :=
          Nat.mul_le_mul (by omega) (by omega)
      _ < U256_MOD := by norm_num [U256_MOD]
  have hden : rin * 1000 + a * feeFactor p < U256_MOD := by
    have : rin * 1000 ≤ (2 ^ 112 - 1) * 1000 := Nat.mul_le_mul_right _ (by omega)
    have h2 : (2 ^ 112 - 1) * 1000 + 2 ^ 144 < U256_MOD := by norm_num [U256_MOD]
    omega
  rw [get_amount_out_eq_spec p a rin rout hfee10 hnum hden]
  rfl

/-! ## Claim theorems -/

/-- C1 (amended): for a `token_in` matching `token_a` or `token_b`,
`simulate_swap` selects `(reserve_in, reserve_out)` by matching `token_in`,
and — provided the fee does not underflow and the two 256-bit products the
source forms do not overflow — returns exactly the spec's output: 0 when
`amount_in`, `reserve_in` or `reserve_out` is zero, otherwise
`floor(amount_in * f * reserve_out / (reserve_in * 1000 + amount_in * f))`
with `f = (10000 - fee/10) / 10`. -/
theorem C1_simulate_swap_matches_spec (p : UniswapV2Pool) (token_in amount_in : Nat)
    (hmatch : token_in = p.token_a ∨ token_in = p.token_b)
    (hfee : p.fee / 10 ≤ 10000)
    (hnum : amount_in * feeFactor p *
      (if p.token_a = token_in then p.reserve_1 else p.reserve_0) < U256_MOD)
    (hden : (if p.token_a = token_in then p.reserve_0 else p.reserve_1) * 1000 +
      amount_in * feeFactor p < U256_MOD) :
    simulate_swap p token_in amount_in =
      some (Except.ok (specSwapOutput p.fee amount_in
        (if p.token_a = token_in then p.reserve_0 else p.reserve_1)
        (if p.token_a = token_in then p.reserve_1 else p.reserve_0))) := by
  rw [simulate_swap_ok_iff]
  exact get_amount_out_eq_spec p amount_in _ _ hfee hnum hden

/-- Witness for C1: the USDC/WETH-like pool with reserves 10^6 and 2*10^6,
fee 300, amount 500, swapping in `token_a`. -/
theorem C1_simulate_swap_matches_spec_witness :
    simulate_swap ⟨100, 1, 18, 2, 18, 1000000, 2000000, 300⟩ 1 500 =
      some (Except.ok (specSwapOutput 300 500
        (if (1 : Nat) = 1 then 1000000 else 2000000)
        (if (1 : Nat) = 1 then 2000000 else 1000000))) :=
  C1_simulate_swap_matches_spec ⟨100, 1, 18, 2, 18, 1000000, 2000000, 300⟩ 1 500
    (Or.inl rfl) (by norm_num) (by norm_num [feeFactor, U256_MOD])
    (by norm_num [feeFactor, U256_MOD])

/-- Counterexample to C1 as stated: for `amount_in = 2^255` on a pool with
112-bit reserves the first `U256` multiplication overflows, so
`simulate_swap` panics (`none`) instead of returning the floor value the
claim promises for every `amount_in` (a value which exists and is
positive). -/
theorem C1_counterexample_overflow_panic :
    simulate_swap ⟨100, 1, 18, 2, 18, 2 ^ 111, 2 ^ 111, 300⟩ 1 (2 ^ 255) = none ∧
    0 < specSwapOutput 300 (2 ^ 255) (2 ^ 111) (2 ^ 111) := by
  exact ⟨rfl, by decide⟩

/-- C4 (amended): `simulate_swap` is total (never panics) for 112-bit
reserves, fee tiers up to 10000 basis points and `amount_in < 2^134`; the
full 256-bit `amount_in` domain of the claim overflows (see the
counterexample). -/
theorem C4_no_overflow_on_bounded_domain (p : UniswapV2Pool) (token_in amount_in : Nat)
    (hfee : p.fee ≤ 10000)
    (hr0 : p.reserve_0 < 2 ^ 112) (hr1 : p.reserve_1 < 2 ^ 112)
    (ha : amount_in < 2 ^ 134) :
    (simulate_swap p token_in amount_in).isSome = true := by
  have key : ∀ rin rout, rin < 2 ^ 112 → rout < 2 ^ 112 →
      ((get_amount_out p amount_in rin rout).map
        (Except.ok (ε := SwapSimulationError))).isSome = true := by
    intro rin rout hrin hrout
    have h := get_amount_out_isSome p amount_in rin rout hfee hrin hrout ha
    cases hga : get_amount_out p amount_in rin rout with
    | none => rw [hga] at h; simp at h
    | some v => simp [hga]
  unfold simulate_swap
  by_cases ht : p.token_a = token_in
  · rw [if_pos ht]; exact key _ _ hr0 hr1
  · rw [if_neg ht]; exact key _ _ hr1 hr0

/-- Witness for C4 at a concrete in-domain input. -/
theorem C4_no_overflow_on_bounded_domain_witness :
    (simulate_swap ⟨100, 1, 18, 2, 18, 1000000, 2000000, 300⟩ 2 100).isSome = true :=
  C4_no_overflow_on_bounded_domain ⟨100, 1, 18, 2, 18, 1000000, 2000000, 300⟩ 2 100
    (by norm_num) (by norm_num) (by norm_num) (by norm_num)

/-- Counterexample to C4 as stated: reserves fitting 112 bits and the
256-bit amount `2^254` make the swap arithmetic overflow its `U256` width,
so `simulate_swap` panics (`none`) — it is not total on the claim's
domain. -/
theorem C4_counterexample_panic_on_256bit_amount :
    (2 ^ 112 - 1 : Nat) < 2 ^ 112 ∧ (2 ^ 254 : Nat) < 2 ^ 256 ∧
    simulate_swap ⟨100, 1, 18, 2, 18, 2 ^ 112 - 1, 2 ^ 112 - 1, 300⟩ 1 (2 ^ 254) = none := by
  exact ⟨by norm_num, by norm_num, rfl⟩

/-- C7: on pools with both reserves positive the swap output is monotone in
`amount_in` and strictly below the selected output reserve, wherever the
source returns a value. -/
theorem C7_swap_monotone_and_bounded (p : UniswapV2Pool) (token_in a1 a2 o1 o2 : Nat)
    (hr0 : 0 < p.reserve_0) (hr1 : 0 < p.reserve_1)
    (h1 : simulate_swap p token_in a1 = some (Except.ok o1))
    (h2 : simulate_swap p token_in a2 = some (Except.ok o2))
    (hle : a1 ≤ a2) :
    o1 ≤ o2 ∧
    o1 < (if p.token_a = token_in then p.reserve_1 else p.reserve_0) ∧
    o2 < (if p.token_a = token_in then p.reserve_1 else p.reserve_0) := by
  rw [simulate_swap_ok_iff] at h1 h2
  have hrin : 0 < (if p.token_a = token_in then p.reserve_0 else p.reserve_1) := by
    split <;> assumption
  have hrout : 0 < (if p.token_a = token_in then p.reserve_1 else p.reserve_0) := by
    split <;> assumption
  exact ⟨get_amount_out_mono p h1 h2 hle,
    get_amount_out_lt_reserve_out p h1 hrin hrout,
    get_amount_out_lt_reserve_out p h2 hrin hrout⟩

/-- Witness for C7 on a concrete pool and amounts 500 ≤ 800. -/
theorem C7_swap_monotone_and_bounded_witness :
    (996 : Nat) ≤ 1593 ∧
    (996 : Nat) <
      (if (1 : Nat) = 1 then 2000000 else 1000000) ∧
    (1593 : Nat) <
      (if (1 : Nat) = 1 then 2000000 else 1000000) :=
  C7_swap_monotone_and_bounded ⟨100, 1, 18, 2, 18, 1000000, 2000000, 300⟩ 1
    500 800 996 1593 (by norm_num) (by norm_num) rfl rfl (by norm_num)

/-- C10: `simulate_swap` never returns an error value — every returned
`Result` is `Ok` — and a `token_in` matching neither token silently takes
the `else` branch, computing the token_b → token_a direction with
`reserve_1` as input reserve and `reserve_0` as output reserve. -/
theorem C10_simulate_swap_never_errors (p : UniswapV2Pool) (token_in amount_in : Nat) :
    (∀ e, simulate_swap p token_in amount_in ≠ some (Except.error e)) ∧
    (token_in ≠ p.token_a →
      simulate_swap p token_in amount_in =
        (get_amount_out p amount_in p.reserve_1 p.reserve_0).map Except.ok) := by
  constructor
  · intro e
    unfold simulate_swap
    split_ifs <;> cases hga : get_amount_out p amount_in _ _ <;> simp [hga]
  · intro hne
    unfold simulate_swap
    rw [if_neg (fun h => hne h.symm)]

/-- Witness for C10 on a `token_in` (9) matching neither pool token. -/
theorem C10_simulate_swap_never_errors_witness :
    (∀ e, simulate_swap ⟨100, 1, 18, 2, 18, 1000000, 2000000, 300⟩ 9 500 ≠
      some (Except.error e)) ∧
    simulate_swap ⟨100, 1, 18, 2, 18, 1000000, 2000000, 300⟩ 9 500 =
      (get_amount_out ⟨100, 1, 18, 2, 18, 1000000, 2000000, 300⟩ 500
        2000000 1000000).map Except.ok :=
  ⟨(C10_simulate_swap_never_errors ⟨100, 1, 18, 2, 18, 1000000, 2000000, 300⟩ 9 500).1,
   (C10_simulate_swap_never_errors ⟨100, 1, 18, 2, 18, 1000000, 2000000, 300⟩ 9 500).2
     (by norm_num)⟩

set_option maxRecDepth 8000 in
/-- C3 (code bug, evaluated at the failing input `pairs_length = 767`): the
766-step address pagination clips its later windows to `pairs_length - 1`
instead of `pairs_length`, so its windows at 767 are `[0,766)` and the
empty `[766,766)` — index 766 is never requested — while the 100-step sync
windows do cover every index of `[0, 767)`. -/
theorem C3_pagination_misses_last_index :
    get_all_pairs_addresses_windows 767 = [(0, 766), (766, 766)] ∧
    windowsCover (get_all_pairs_addresses_windows 767) 766 = false ∧
    ((List.range 767).all fun i => windowsCover (syncWindows 767 100) i) = true := by
  refine ⟨rfl, rfl, ?_⟩
  decide

/-- C9: whenever the decimal normalization succeeds and the normalized
reserve of the base token is zero, `calculate_price_64_x_64` returns the
64.64 fixed-point representation of 1.0 (`2^64`) instead of dividing by
zero or erroring.  (A base token matching neither pool token is priced as
`token_b`, so the base reserve is `r_0` exactly when the base is
`token_a`.) -/
theorem C9_zero_base_reserve_price_is_one (p : UniswapV2Pool)
    (base_token r0 r1 : Nat)
    (hn : normalize_reserves p = some (r0, r1))
    (hz : (if base_token = p.token_a then r0 else r1) = 0) :
    calculate_price_64_x_64 p base_token = some (Except.ok (2 ^ 64)) := by
  unfold calculate_price_64_x_64
  rw [hn]
  by_cases hb : base_token = p.token_a
  · rw [if_pos hb] at hz
    simp [hb, hz, U128_0X10000000000000000]
  · rw [if_neg hb] at hz
    simp [hb, hz, U128_0X10000000000000000]

/-- Witness for C9: an 18/18-decimals pool with `reserve_0 = 0`, priced in
`token_a`. -/
theorem C9_zero_base_reserve_price_is_one_witness :
    calculate_price_64_x_64 ⟨100, 1, 18, 2, 18, 0, 7, 300⟩ 1 =
      some (Except.ok (2 ^ 64)) :=
  C9_zero_base_reserve_price_is_one ⟨100, 1, 18, 2, 18, 0, 7, 300⟩ 1 0 7 rfl rfl

/-- C8 (amended): on pools whose token decimals are both below 128 (so the
`u8 as i8` casts do not wrap) and differ by at most 38 (so `10^|shift|`
fits `u128`), with `u128` reserves, the source's normalization equals the
spec's: the reserve of the token with fewer decimals is multiplied by
`10^|decimal shift|`, the other reserve unchanged, with no wraparound or
panic. -/
theorem C8_normalization_on_valid_range (p : UniswapV2Pool)
    (hda : p.token_a_decimals < 128) (hdb : p.token_b_decimals < 128)
    (hd1 : p.token_a_decimals ≤ p.token_b_decimals + 38)
    (hd2 : p.token_b_decimals ≤ p.token_a_decimals + 38)
    (hr0 : p.reserve_0 < U128_MOD) (hr1 : p.reserve_1 < U128_MOD) :
    normalize_reserves p = some (spec_normalized_reserves p) := by
  have hpow : ∀ k : Nat, k ≤ 38 → 10 ^ k < U128_MOD := by
    intro k hk
    calc (10 : Nat) ^ k ≤ 10 ^ 38 := Nat.pow_le_pow_right (by norm_num) hk
      _ < U128_MOD := by norm_num [U128_MOD]
  have hmul : ∀ r k : Nat, r < U128_MOD → k ≤ 38 → r * 10 ^ k < U256_MOD := by
    intro r k hr hk
    calc r * 10 ^ k ≤ (U128_MOD - 1) * (U128_MOD - 1) :=
          Nat.mul_le_mul (by omega) (by have := hpow k hk; omega)
      _ < U256_MOD := by norm_num [U128_MOD, U256_MOD]
  unfold normalize_reserves u8AsI8 spec_normalized_reserves
  rw [if_pos hda, if_pos hdb]
  rw [if_neg (by omega)]
  by_cases hlt : (p.token_a_decimals : Int) - p.token_b_decimals < 0
  · have hab : p.token_a_decimals < p.token_b_decimals := by omega
    have habs : ((p.token_a_decimals : Int) - p.token_b_decimals).natAbs =
        p.token_b_decimals - p.token_a_decimals := by omega
    rw [if_pos hlt, habs,
      if_neg (by push_neg; exact hpow _ (by omega)),
      if_neg (by push_neg; exact hmul _ _ hr0 (by omega)),
      if_pos (by omega)]
  · have hab : p.token_b_decimals ≤ p.token_a_decimals := by omega
    have htn : ((p.token_a_decimals : Int) - p.token_b_decimals).toNat =
        p.token_a_decimals - p.token_b_decimals := by omega
    rw [if_neg hlt, htn,
      if_neg (by push_neg; exact hpow _ (by omega)),
      if_neg (by push_neg; exact hmul _ _ hr1 (by omega))]
    rcases Nat.eq_or_lt_of_le hab with heq | hlt2
    · rw [if_pos (by omega)]
      rw [heq]
      simp
    · rw [if_neg (by omega)]

/-- Witness for C8 on a USDC(6)/WETH(18)-style pool. -/
theorem C8_normalization_on_valid_range_witness :
    normalize_reserves ⟨100, 1, 6, 2, 18, 5, 7, 300⟩ =
      some (spec_normalized_reserves ⟨100, 1, 6, 2, 18, 5, 7, 300⟩) :=
  C8_normalization_on_valid_range ⟨100, 1, 6, 2, 18, 5, 7, 300⟩
    (by norm_num) (by norm_num) (by norm_num) (by norm_num)
    (by norm_num [U128_MOD]) (by norm_num [U128_MOD])

/-- Counterexample to C8 as stated: with decimals 0 and 39 — both inside
the claimed 0–255 range — the shift is −39 and `10u128.pow(39)` exceeds
`u128`, so the normalization panics (`none`) instead of being computed
correctly. -/
theorem C8_counterexample_decimals_39 :
    (⟨100, 1, 0, 2, 39, 5, 7, 300⟩ : UniswapV2Pool).token_a_decimals ≤ 255 ∧
    (⟨100, 1, 0, 2, 39, 5, 7, 300⟩ : UniswapV2Pool).token_b_decimals ≤ 255 ∧
    normalize_reserves ⟨100, 1, 0, 2, 39, 5, 7, 300⟩ = none := by
  exact ⟨by norm_num, by norm_num, rfl⟩

/-- C2 (amended): `new_from_address` can only return a populated pool — the
guard rejects any fetched pool with a zero token address or a zero
reserve.  (The batch discovery paths perform no such check; see the
counterexample.) -/
theorem C2_new_from_address_populated (fetch : Nat → PoolData)
    (pair_address fee : Nat) (p : UniswapV2Pool)
    (h : new_from_address fetch pair_address fee = Except.ok p) :
    data_is_populated p = true := by
  simp only [new_from_address] at h
  cases hpop : data_is_populated (poolFromData (fetch pair_address) pair_address fee)
  · rw [hpop] at h; simp at h
  · rw [hpop] at h; simp at h; rw [← h]; exact hpop

/-- Witness for C2 on a concrete populated fetch. -/
theorem C2_new_from_address_populated_witness :
    data_is_populated (poolFromData ⟨1, 18, 2, 18, 5, 7⟩ 42 300) = true :=
  C2_new_from_address_populated (fun _ => ⟨1, 18, 2, 18, 5, 7⟩) 42 300
    (poolFromData ⟨1, 18, 2, 18, 5, 7⟩ 42 300) rfl

/-- Counterexample to C2 as stated: `get_pairs_range` forwards the batch
fetch result with no populated check, so a fetched pool with
`reserve_0 = 0` is included in the returned list. -/
theorem C2_counterexample_unpopulated_in_batch :
    get_pairs_range (fun _ _ => [42]) (fun _ => ⟨1, 18, 2, 18, 0, 5⟩) 300 0 1 =
      [poolFromData ⟨1, 18, 2, 18, 0, 5⟩ 42 300] ∧
    data_is_populated (poolFromData ⟨1, 18, 2, 18, 0, 5⟩ 42 300) = false := by
  exact ⟨rfl, rfl⟩

/-- C6 (amended): the log-range merge loop tolerates failures only at
whole-window granularity — every `PoolDataError` window is dropped entirely
while the `Ok` windows' batches are all kept — and any other error aborts
the run, returning that error with no partial result. -/
theorem C6_merge_drops_whole_windows :
    (∀ results : List (Except AMMError (List UniswapV2Pool)),
      (∀ r ∈ results, okOrPoolErr r = true) →
      mergeLogSyncResults results = Except.ok (okBatches results)) ∧
    (∀ (pre rest : List (Except AMMError (List UniswapV2Pool))) (e : AMMError),
      (∀ r ∈ pre, okOrPoolErr r = true) → okOrPoolErr (Except.error e) = false →
      mergeLogSyncResults (pre ++ Except.error e :: rest) = Except.error e) := by
  constructor
  · intro results h
    induction results with
    | nil => rfl
    | cons r rest ih =>
      have hr := h r (List.mem_cons_self r rest)
      have hrest : ∀ x ∈ rest, okOrPoolErr x = true :=
        fun x hx => h x (List.mem_cons_of_mem _ hx)
      cases r with
      | ok batch => simp only [mergeLogSyncResults, ih hrest, okBatches]
      | error e =>
        cases e with
        | poolDataError a =>
            simp only [mergeLogSyncResults, ih hrest, okBatches]
        | batchRequestError a => simp [okOrPoolErr] at hr
        | middlewareError => simp [okOrPoolErr] at hr
        | outOfGasError l => simp [okOrPoolErr] at hr
        | contractError => simp [okOrPoolErr] at hr
  · intro pre rest e hpre hbad
    induction pre with
    | nil =>
      rw [List.nil_append]
      cases e with
      | poolDataError a => simp [okOrPoolErr] at hbad
      | batchRequestError a => rfl
      | middlewareError => rfl
      | outOfGasError l => rfl
      | contractError => rfl
    | cons r pre' ih =>
      have hr := hpre r (List.mem_cons_self r pre')
      have hpre' : ∀ x ∈ pre', okOrPoolErr x = true :=
        fun x hx => hpre x (List.mem_cons_of_mem _ hx)
      cases r with
      | ok batch =>
          simp only [List.cons_append, mergeLogSyncResults, List.append_eq, ih hpre']
      | error e' =>
        cases e' with
        | poolDataError a =>
            simpa only [List.cons_append, mergeLogSyncResults, List.append_eq]
              using ih hpre'
        | batchRequestError a => simp [okOrPoolErr] at hr
        | middlewareError => simp [okOrPoolErr] at hr
        | outOfGasError l => simp [okOrPoolErr] at hr
        | contractError => simp [okOrPoolErr] at hr

/-- Witness for C6: a tolerated `PoolDataError` window between two `Ok`
windows, and a `MiddlewareError` aborting the run. -/
theorem C6_merge_drops_whole_windows_witness :
    mergeLogSyncResults [Except.ok [(⟨1, 1, 1, 1, 1, 1, 1, 1⟩ : UniswapV2Pool)],
        Except.error (AMMError.poolDataError 5),
        Except.ok [(⟨2, 2, 2, 2, 2, 2, 2, 2⟩ : UniswapV2Pool)]] =
      Except.ok (okBatches [Except.ok [(⟨1, 1, 1, 1, 1, 1, 1, 1⟩ : UniswapV2Pool)],
        Except.error (AMMError.poolDataError 5),
        Except.ok [(⟨2, 2, 2, 2, 2, 2, 2, 2⟩ : UniswapV2Pool)]]) ∧
    mergeLogSyncResults ([Except.ok [(⟨1, 1, 1, 1, 1, 1, 1, 1⟩ : UniswapV2Pool)]] ++
        Except.error AMMError.middlewareError :: []) =
      Except.error AMMError.middlewareError :=
  ⟨C6_merge_drops_whole_windows.1 _ (by decide),
   C6_merge_drops_whole_windows.2 [Except.ok [(⟨1, 1, 1, 1, 1, 1, 1, 1⟩ : UniswapV2Pool)]]
     [] AMMError.middlewareError (by decide) (by decide)⟩

/-- Counterexample to C6 as stated: in log-range discovery a fetched pool
with a zero reserve is not detected at all — the batch path raises no
`PoolDataError` — so the unpopulated pool is returned in the result rather
than being dropped. -/
theorem C6_counterexample_zero_reserve_pool_returned :
    sync_all_uniswap_v2_pools_from_logs_use_range (fun _ _ => [10, 11])
        (fun a => if a = 10 then ⟨1, 18, 2, 18, 3, 4⟩ else ⟨1, 18, 2, 18, 0, 5⟩)
        300 0 100 =
      Except.ok [poolFromData ⟨1, 18, 2, 18, 3, 4⟩ 10 300,
        poolFromData ⟨1, 18, 2, 18, 0, 5⟩ 11 300] ∧
    data_is_populated (poolFromData ⟨1, 18, 2, 18, 0, 5⟩ 11 300) = false := by
  exact ⟨rfl, rfl⟩

/-- The first collection loop of `get_weth_value_in_pools`, characterized:
when every batch either succeeds or fails oversized, it returns the merged
successful values together with exactly the addresses of the oversized
batches. -/
theorem collectWethResults_spec (status : List Nat → BatchStatus) (vf : Nat → Nat)
    (bs : List (List Nat))
    (h : ∀ b ∈ bs, status b = BatchStatus.success ∨ status b = BatchStatus.tooLarge) :
    ∃ vals failed,
      collectWethResults (bs.map (get_weth_value_in_pool_batch_request status vf)) =
        Except.ok (vals, failed) ∧
      (∀ b ∈ bs, status b = BatchStatus.success → ∀ a ∈ b, (a, vf a) ∈ vals) ∧
      (∀ b ∈ bs, status b = BatchStatus.tooLarge → ∀ a ∈ b, a ∈ failed) ∧
      (∀ a ∈ failed, ∃ b, b ∈ bs ∧ status b = BatchStatus.tooLarge ∧ a ∈ b) := by
  induction bs with
  | nil => exact ⟨[], [], rfl, by simp, by simp, by simp⟩
  | cons b bs ih =>
    obtain ⟨vals, failed, heq, hok, hfail, hfrom⟩ :=
      ih (fun x hx => h x (List.mem_cons_of_mem _ hx))
    rcases h b (List.mem_cons_self b bs) with hs | hs
    · refine ⟨b.map (fun a => (a, vf a)) ++ vals, failed, ?_, ?_, ?_, ?_⟩
      · simp only [List.map_cons, get_weth_value_in_pool_batch_request, hs,
          collectWethResults, heq]
      · intro b' hb' hsb' a ha
        rcases List.mem_cons.mp hb' with rfl | hb'
        · exact List.mem_append_left _ (List.mem_map.mpr ⟨a, ha, rfl⟩)
        · exact List.mem_append_right _ (hok b' hb' hsb' a ha)
      · intro b' hb' htb' a ha
        rcases List.mem_cons.mp hb' with rfl | hb'
        · rw [hs] at htb'; cases htb'
        · exact hfail b' hb' htb' a ha
      · intro a ha
        obtain ⟨b', hb', ht', ha'⟩ := hfrom a ha
        exact ⟨b', List.mem_cons_of_mem _ hb', ht', ha'⟩
    · refine ⟨vals, b ++ failed, ?_, ?_, ?_, ?_⟩
      · simp only [List.map_cons, get_weth_value_in_pool_batch_request, hs,
          collectWethResults, heq]
      · intro b' hb' hsb' a ha
        rcases List.mem_cons.mp hb' with rfl | hb'
        · rw [hs] at hsb'; cases hsb'
        · exact hok b' hb' hsb' a ha
      · intro b' hb' htb' a ha
        rcases List.mem_cons.mp hb' with rfl | hb'
        · exact List.mem_append_left _ ha
        · exact List.mem_append_right _ (hfail b' hb' htb' a ha)
      · intro a ha
        rcases List.mem_append.mp ha with ha | ha
        · exact ⟨b, List.mem_cons_self b bs, hs, ha⟩
        · obtain ⟨b', hb', ht', ha'⟩ := hfrom a ha
          exact ⟨b', List.mem_cons_of_mem _ hb', ht', ha'⟩

/-- The retry loop of `get_weth_value_in_pools`, characterized: when every
single-address retry succeeds it returns values for all failed
addresses. -/
theorem retryFailedSingles_spec (status : List Nat → BatchStatus) (vf : Nat → Nat)
    (failed : List Nat) (h : ∀ a ∈ failed, status [a] = BatchStatus.success) :
    ∃ vals2, retryFailedSingles status vf failed = Except.ok vals2 ∧
      ∀ a ∈ failed, (a, vf a) ∈ vals2 := by
  induction failed with
  | nil => exact ⟨[], rfl, by simp⟩
  | cons a rest ih =>
    obtain ⟨vals2, heq, hin⟩ := ih (fun x hx => h x (List.mem_cons_of_mem _ hx))
    have hs := h a (List.mem_cons_self a rest)
    refine ⟨[(a, vf a)] ++ vals2, ?_, ?_⟩
    · simp only [retryFailedSingles, get_weth_value_in_pool_batch_request, hs, heq,
        List.map]
    · intro x hx
      rcases List.mem_cons.mp hx with rfl | hx
      · exact List.mem_append_left _ (List.mem_singleton.mpr rfl)
      · exact List.mem_append_right _ (hin x hx)

/-- The first collection loop of `get_weth_value_in_pools` on a window list
containing a hard failure: the windows before it succeeding or oversized,
the loop returns the hard error for the whole call. -/
theorem collectWethResults_hardFail (status : List Nat → BatchStatus) (vf : Nat → Nat)
    (pre : List (List Nat)) (b : List Nat) (rest : List (List Nat))
    (hpre : ∀ x ∈ pre, status x = BatchStatus.success ∨ status x = BatchStatus.tooLarge)
    (hb : status b = BatchStatus.hardFail) :
    collectWethResults
        ((pre ++ b :: rest).map (get_weth_value_in_pool_batch_request status vf)) =
      Except.error AMMError.middlewareError := by
  induction pre with
  | nil =>
    simp only [List.nil_append, List.map_cons, get_weth_value_in_pool_batch_request,
      hb, collectWethResults]
  | cons p pre' ih =>
    have hpre' : ∀ x ∈ pre',
        status x = BatchStatus.success ∨ status x = BatchStatus.tooLarge :=
      fun x hx => hpre x (List.mem_cons_of_mem _ hx)
    rcases hpre p (List.mem_cons_self p pre') with hp | hp <;>
      simp only [List.cons_append, List.map_cons, get_weth_value_in_pool_batch_request,
        hp, collectWethResults, ih hpre']

/-- C5 (amended): a window failing as "too large" is split into one
single-address request per address — one level of splitting to singletons,
not recursive midpoint bisection — and when those retries succeed the
merged result contains every item of the failing window while sibling
windows' results are unaffected; a failure not classified "too large", at
any window position, aborts the whole call with that error instead of
being retried. -/
theorem C5_oversized_window_single_retry :
    (∀ (status : List Nat → BatchStatus) (vf : Nat → Nat)
      (addresses w : List Nat) (step : Nat),
      w ∈ addressWindows addresses step →
      (∀ b ∈ addressWindows addresses step, b ≠ w → status b = BatchStatus.success) →
      status w = BatchStatus.tooLarge →
      (∀ a ∈ w, status [a] = BatchStatus.success) →
      ∃ vals, get_weth_value_in_pools status vf addresses step = Except.ok vals ∧
        (∀ a ∈ w, (a, vf a) ∈ vals) ∧
        (∀ b ∈ addressWindows addresses step, b ≠ w → ∀ a ∈ b, (a, vf a) ∈ vals)) ∧
    (∀ (status : List Nat → BatchStatus) (vf : Nat → Nat)
      (addresses : List Nat) (step : Nat) (pre : List (List Nat)) (b : List Nat)
      (rest : List (List Nat)),
      addressWindows addresses step = pre ++ b :: rest →
      (∀ x ∈ pre, status x = BatchStatus.success ∨ status x = BatchStatus.tooLarge) →
      status b = BatchStatus.hardFail →
      get_weth_value_in_pools status vf addresses step =
        Except.error AMMError.middlewareError) := by
  constructor
  · intro status vf addresses w step hwmem hsib hfail hsingles
    have hall : ∀ b ∈ addressWindows addresses step,
        status b = BatchStatus.success ∨ status b = BatchStatus.tooLarge := by
      intro b hb
      by_cases hbw : b = w
      · subst hbw; exact Or.inr hfail
      · exact Or.inl (hsib b hb hbw)
    obtain ⟨vals, failed, heq, hok, hfl, hfrom⟩ :=
      collectWethResults_spec status vf (addressWindows addresses step) hall
    have hfs : ∀ a ∈ failed, status [a] = BatchStatus.success := by
      intro a ha
      obtain ⟨b, hb, htb, hab⟩ := hfrom a ha
      have hbw : b = w := by
        by_contra hne
        rw [hsib b hb hne] at htb; cases htb
      exact hsingles a (hbw ▸ hab)
    obtain ⟨vals2, heq2, hin2⟩ := retryFailedSingles_spec status vf failed hfs
    refine ⟨vals ++ vals2, ?_, ?_, ?_⟩
    · unfold get_weth_value_in_pools
      rw [heq]
      dsimp only
      rw [heq2]
    · intro a ha
      exact List.mem_append_right _ (hin2 a (hfl w hwmem hfail a ha))
    · intro b hb hbw a ha
      exact List.mem_append_left _ (hok b hb (hsib b hb hbw) a ha)
  · intro status vf addresses step pre b rest haddr hpre hb
    unfold get_weth_value_in_pools
    rw [haddr, collectWethResults_hardFail status vf pre b rest hpre hb]

/-- Witness for C5: windows `[1,2,3,4]` (oversized) and `[5,6,7,8]` over
eight addresses with step 4 and successful single retries; and a hard
failure on the second window of a four-address call whose first window
succeeds. -/
theorem C5_oversized_window_single_retry_witness :
    (∃ vals, get_weth_value_in_pools
        (fun b => if b = [1, 2, 3, 4] then BatchStatus.tooLarge else BatchStatus.success)
        (fun a => a * 10) [1, 2, 3, 4, 5, 6, 7, 8] 4 = Except.ok vals ∧
      (∀ a ∈ [1, 2, 3, 4], (a, a * 10) ∈ vals) ∧
      (∀ b ∈ addressWindows [1, 2, 3, 4, 5, 6, 7, 8] 4, b ≠ [1, 2, 3, 4] →
        ∀ a ∈ b, (a, a * 10) ∈ vals)) ∧
    get_weth_value_in_pools
        (fun b => if b = [3, 4] then BatchStatus.hardFail else BatchStatus.success)
        (fun a => a * 10) [1, 2, 3, 4] 2 = Except.error AMMError.middlewareError :=
  ⟨C5_oversized_window_single_retry.1
      (fun b => if b = [1, 2, 3, 4] then BatchStatus.tooLarge else BatchStatus.success)
      (fun a => a * 10) [1, 2, 3, 4, 5, 6, 7, 8] [1, 2, 3, 4] 4
      (by decide) (by decide) (by decide) (by decide),
   C5_oversized_window_single_retry.2
      (fun b => if b = [3, 4] then BatchStatus.hardFail else BatchStatus.success)
      (fun a => a * 10) [1, 2, 3, 4] 2 [[1, 2]] [3, 4] []
      (by decide) (by decide) (by decide)⟩

/-- Counterexample to C5 as stated: after the size-4 window `[1,2,3,4]`
fails oversized, the engine issues the single-address batches `[1]`, `[2]`,
`[3]`, `[4]` directly and never issues the midpoint half `[1,2]` — there is
no midpoint bisection — though the merged result does contain all items. -/
theorem C5_counterexample_no_midpoint_bisection :
    issuedBatches
        (fun b => if b = [1, 2, 3, 4] then BatchStatus.tooLarge else BatchStatus.success)
        [1, 2, 3, 4, 5, 6, 7, 8] 4 =
      [[1, 2, 3, 4], [5, 6, 7, 8], [1], [2], [3], [4]] ∧
    [1, 2] ∉ issuedBatches
        (fun b => if b = [1, 2, 3, 4] then BatchStatus.tooLarge else BatchStatus.success)
        [1, 2, 3, 4, 5, 6, 7, 8] 4 ∧
    get_weth_value_in_pools
        (fun b => if b = [1, 2, 3, 4] then BatchStatus.tooLarge else BatchStatus.success)
        (fun a => a * 10) [1, 2, 3, 4, 5, 6, 7, 8] 4 =
      Except.ok [(5, 50), (6, 60), (7, 70), (8, 80), (1, 10), (2, 20), (3, 30), (4, 40)] := by
  exact ⟨rfl, by decide, rfl⟩

end AmmToolkit
